import Mathlib

/-!
Shallow embedding of the local-poll HTTP server core (dispatcher, route
registry, view resolver, body codec) and proofs about it.

Conventions of the embedding:
* The filesystem seen by the view resolver is a snapshot value `FSTree`;
  paths are lists of segments relative to the client root directory
  (`src/client`), so the pages root is `["app", "pages"]`.
* JavaScript records are modelled by `Value` (string leaves and
  string-keyed objects), which covers every data context the engine builds.
* String scanning functions are implemented over `List Char` so that all
  definitions reduce inside the kernel; a literal brace character is
  written via its code point.
-/

namespace LocalPoll

/-- Left brace character (code point 123). -/
def lbrace : Char := Char.ofNat 123

/-- Right brace character (code point 125). -/
def rbrace : Char := Char.ofNat 125

/-- Backquote character (code point 96), used by the replacement-pattern
grammar of JavaScript string replace. -/
def backquoteChar : Char := Char.ofNat 96

/-- Single quote character (code point 39), used by the replacement-pattern
grammar of JavaScript string replace. -/
def singleQuoteChar : Char := Char.ofNat 39

/-- Models JavaScript `String.prototype.startsWith`. -/
def strStartsWith (s p : String) : Bool :=
  p.data.isPrefixOf s.data

/-- Models JavaScript `String.prototype.toUpperCase` on ASCII data (the
only inputs the server feeds it: HTTP method names). -/
def toUpperStr (s : String) : String :=
  String.mk (s.data.map Char.toUpper)

/-- Models JavaScript `String.prototype.toLowerCase` on ASCII data (file
extensions). -/
def toLowerStr (s : String) : String :=
  String.mk (s.data.map Char.toLower)

/-- Helper for splitting a character list at a separator character. -/
def splitOnCharAux (sep : Char) (acc : List Char) : List Char → List (List Char)
  | [] => [acc.reverse]
  | c :: rest =>
    if c == sep then acc.reverse :: splitOnCharAux sep [] rest
    else splitOnCharAux sep (c :: acc) rest

/-- Models JavaScript `String.prototype.split` with a one-character
separator: `"a//b".split("/") = ["a", "", "b"]`, `"".split("/") = [""]`. -/
def splitStrOnChar (sep : Char) (s : String) : List String :=
  (splitOnCharAux sep [] s.data).map String.mk

/-- Models `String.prototype.substring(1)` and friends. -/
def dropStr (s : String) (n : Nat) : String :=
  String.mk (s.data.drop n)

/-- Whitespace recognizer for the `trim` model (ASCII whitespace, which is
all that request bodies in scope contain). -/
def isJsSpace (c : Char) : Bool :=
  c == ' ' || c == '\t' || c == '\n' || c == '\r' || c == '\x0b' || c == '\x0c'

/-- Models JavaScript `String.prototype.trim` on ASCII whitespace. -/
def trimStr (s : String) : String :=
  String.mk (((s.data.dropWhile isJsSpace).reverse.dropWhile isJsSpace).reverse)

/-- Joins strings with a `=` separator; used to rebuild the value part of a
query pair that itself contains `=`. -/
def intercalateEq : List String → String
  | [] => ""
  | [s] => s
  | s :: rest => s ++ "=" ++ intercalateEq rest

/-! ### Filesystem snapshot -/

/-- Snapshot of a directory tree: what `fs.existsSync`, `fs.readdirSync`
and `fs.readFileSync` observe during one resolution. -/
inductive FSTree where
  | file (content : String)
  | dir (entries : List (String × FSTree))

/-- True on directory nodes, mirroring `Dirent.isDirectory`. -/
def FSTree.isDir : FSTree → Bool
  | .dir _ => true
  | .file _ => false

/-- Walks a path (list of segments) down the tree. -/
def FSTree.lookup : FSTree → List String → Option FSTree
  | t, [] => some t
  | t, name :: rest =>
    match t with
    | .file _ => none
    | .dir entries =>
      match entries.find? (fun e => e.1 == name) with
      | some e => FSTree.lookup e.2 rest
      | none => none

/-- Models `fs.existsSync` on the snapshot. -/
def existsSync (fs : FSTree) (p : List String) : Bool :=
  (fs.lookup p).isSome

/-- Models `fs.readdirSync` (with file types): the entry list of a
directory, or failure when the path is missing or not a directory. -/
def readdir (fs : FSTree) (p : List String) : Option (List (String × FSTree)) :=
  match fs.lookup p with
  | some (.dir entries) => some entries
  | _ => none

/-- Models `fs.readFileSync` as UTF-8 text; fails on directories and
missing paths, which the source catches. -/
def readFile (fs : FSTree) (p : List String) : Option String :=
  match fs.lookup p with
  | some (.file content) => some content
  | _ => none

/-! ### JavaScript record values and dotted-path lookup -/

/-- Data values flowing through the view engine: string leaves and
string-keyed objects, the shapes the engine builds for its data context.
`Option Value` stands for a possibly-`undefined` JavaScript value. -/
inductive Value where
  | str (s : String)
  | obj (fields : List (String × Value))

/-- Property access `v[k]`: object fields by name, everything else
`undefined` (string exotic properties are outside the modelled universe). -/
def Value.access : Value → String → Option Value
  | .str _, _ => none
  | .obj fields, k => (fields.find? (fun f => f.1 == k)).map Prod.snd

/-- The reduce in `parseVariables`: walk `data` through the dot-separated
components; any missing step yields `undefined`. The JavaScript truthiness
test on the accumulator is absorbed: the only falsy value in this universe
is the empty string, and property access on any string already yields
`undefined` here. -/
def walkPath (data : Value) (keys : List String) : Option Value :=
  keys.foldl (fun acc k => acc.bind (fun v => v.access k)) (some data)

/-- Models `String(value)` on the modelled universe (`"[object Object]"`
for plain objects) and the empty-string default for `undefined`. -/
def displayValue : Option Value → String
  | none => ""
  | some (.str s) => s
  | some (.obj _) => "[object Object]"

/-- Character class of the interpolation key grammar: JavaScript regex
`[\w.]`, i.e. ASCII alphanumerics, underscore and dot. -/
def isWordDot (c : Char) : Bool :=
  c.isAlphanum || c == '_' || c == '.'

/-- Scanner for `template.replace(/\x7b\x7b([\w.]+)\x7d\x7d/g, ...)` from
`parseVariables`: at each position, a doubled left brace followed by a
nonempty run of word-or-dot characters and a doubled right brace is
replaced by the displayed value of the dotted-path walk; any failed match
emits one character and rescans from the next position, exactly as the
regex engine advances. The fuel argument is an upper bound on the number
of scan positions; callers pass the input length, which always suffices
since every step consumes at least one character. -/
def parseVarsAux (data : Value) : Nat → List Char → List Char
  | _, [] => []
  | 0, l => l
  | fuel + 1, c :: rest =>
    if c == lbrace then
      match rest with
      | c2 :: rest2 =>
        if c2 == lbrace then
          let key := rest2.takeWhile isWordDot
          let rest1 := rest2.dropWhile isWordDot
          match rest1 with
          | d1 :: d2 :: rest3 =>
            if d1 == rbrace && d2 == rbrace && !key.isEmpty then
              (displayValue (walkPath data ((splitStrOnChar '.' (String.mk key))))).data
                ++ parseVarsAux data fuel rest3
            else c :: parseVarsAux data fuel rest
          | _ => c :: parseVarsAux data fuel rest
        else c :: parseVarsAux data fuel rest
      | [] => [c]
    else c :: parseVarsAux data fuel rest

/-- Embeds `ViewEngine.parseVariables` (view-engine.ts): interpolates
every `\x7b\x7bdotted.key\x7d\x7d` occurrence against `data`. -/
def parseVariables (template : String) (data : Value) : String :=
  String.mk (parseVarsAux data template.data.length template.data)

/-! ### JavaScript string replace (string pattern, first occurrence) -/

/-- Splits `s` at the first occurrence of `pat`, returning the preceding
and following character lists, or `none` when `pat` does not occur. -/
def findFirst? (pat : List Char) : List Char → Option (List Char × List Char)
  | [] => if pat.isEmpty then some ([], []) else none
  | c :: rest =>
    if pat.isPrefixOf (c :: rest) then some ([], (c :: rest).drop pat.length)
    else
      match findFirst? pat rest with
      | some (pre, suf) => some (c :: pre, suf)
      | none => none

/-- GetSubstitution step of JavaScript `String.prototype.replace` with a
string search value: in the replacement text, `$$` yields `$`, `$&` the
matched substring, a dollar followed by a backquote the portion preceding
the match, a dollar followed by a single quote the portion following the
match; every other character (including unrecognized dollar sequences) is
copied literally. -/
def expandDollar (matched pre suf : List Char) : List Char → List Char
  | [] => []
  | c :: rest =>
    if c == '$' then
      match rest with
      | c2 :: rest2 =>
        if c2 == '$' then c :: expandDollar matched pre suf rest2
        else if c2 == '&' then matched ++ expandDollar matched pre suf rest2
        else if c2 == backquoteChar then pre ++ expandDollar matched pre suf rest2
        else if c2 == singleQuoteChar then suf ++ expandDollar matched pre suf rest2
        else c :: c2 :: expandDollar matched pre suf rest2
      | [] => [c]
    else c :: expandDollar matched pre suf rest

/-- Models JavaScript `s.replace(pat, rep)` with a string `pat`: only the
first occurrence is replaced, and the replacement text goes through
dollar-sequence substitution (`expandDollar`). -/
def jsReplaceFirst (s pat rep : String) : String :=
  match findFirst? pat.data s.data with
  | none => s
  | some (pre, suf) => String.mk (pre ++ expandDollar pat.data pre suf rep.data ++ suf)

/-- Modelled from the spec: replacement of the first occurrence of `pat`
by `rep` verbatim, the behavior the specification ascribes to the layout
composition step. Kept separate from `jsReplaceFirst` so the two can be
compared. -/
def literalReplaceFirst (s pat rep : String) : String :=
  match findFirst? pat.data s.data with
  | none => s
  | some (pre, suf) => String.mk (pre ++ rep.data ++ suf)

/-! ### View resolver (view-engine.ts) -/

/-- JavaScript-object insertion used for `\x7b...ps, [k]: v\x7d` and
`Object.fromEntries`: an existing key keeps its position and gets the new
value, a new key is appended. -/
def insertParam (ps : List (String × String)) (k v : String) : List (String × String) :=
  if ps.any (fun p => p.1 == k) then ps.map (fun p => if p.1 == k then (k, v) else p)
  else ps ++ [(k, v)]

/-- Appends `".html"` to the last path segment, matching the string
concatenation in the source (template strings of the form
`pathPrefix + ".html"`); on the empty segment list this is the file name
`".html"` itself, matching `path.join(root, "" + ".html")`. -/
def appendHtml : List String → List String
  | [] => [".html"]
  | [s] => [s ++ ".html"]
  | s :: rest => s :: appendHtml rest

/-- Embeds `ViewEngine.searchDynamicRoutes`: recursive walk over the pages
tree. With segments exhausted it probes `index.html` in the current
directory and then the sibling `.html` file; otherwise it lists the
current directory once, first descending into every subdirectory whose
name equals the current segment, then into every subdirectory whose name
begins with the dynamic marker `:`, binding the marker-stripped name to
the segment value. A `readdir` failure is caught and yields no match. The
fuel argument only replays the structural recursion of the source (one
unit per consumed segment); callers pass the segment count, which always
suffices. -/
def searchDynamicRoutes (fs : FSTree) :
    Nat → List String → List String → List String → List (String × String) →
    Option (List String × List (String × String))
  | _, currentPath, [], _, dynamicParams =>
    if existsSync fs (currentPath ++ ["index.html"]) then
      some (currentPath ++ ["index.html"], dynamicParams)
    else if existsSync fs (appendHtml currentPath) then
      some (appendHtml currentPath, dynamicParams)
    else none
  | 0, _, _ :: _, _, _ => none
  | fuel + 1, currentPath, currentSegment :: restSegments, matchedSegments, dynamicParams =>
    match readdir fs currentPath with
    | none => none
    | some entries =>
      match entries.findSome? (fun e =>
          if e.2.isDir && e.1 == currentSegment then
            searchDynamicRoutes fs fuel (currentPath ++ [e.1]) restSegments
              (matchedSegments ++ [currentSegment]) dynamicParams
          else none) with
      | some result => some result
      | none =>
        entries.findSome? (fun e =>
          if e.2.isDir && strStartsWith e.1 ":" then
            searchDynamicRoutes fs fuel (currentPath ++ [e.1]) restSegments
              (matchedSegments ++ [e.1])
              (insertParam dynamicParams (dropStr e.1 1) currentSegment)
          else none)

/-- Embeds `ViewEngine.findExactMatch`: probe `pages/<joined>/index.html`
then `pages/<joined>.html`. -/
def findExactMatch (fs : FSTree) (segments : List String) :
    Option (List String × List (String × String)) :=
  let indexPath := ["app", "pages"] ++ segments ++ ["index.html"]
  if existsSync fs indexPath then some (indexPath, [])
  else
    let directPath := ["app", "pages"] ++ appendHtml segments
    if existsSync fs directPath then some (directPath, [])
    else none

/-- Embeds `ViewEngine.findDynamicMatch`. -/
def findDynamicMatch (fs : FSTree) (segments : List String) :
    Option (List String × List (String × String)) :=
  searchDynamicRoutes fs segments.length ["app", "pages"] segments [] []

/-- Embeds `ViewEngine.get404Path`: `app/404.html`, else
`app/404/index.html`, else the empty-path sentinel. -/
def get404Path (fs : FSTree) : List String × List (String × String) :=
  if existsSync fs ["app", "404.html"] then (["app", "404.html"], [])
  else if existsSync fs ["app", "404", "index.html"] then (["app", "404", "index.html"], [])
  else ([], [])

/-- Embeds `ViewEngine.getTemplatePath`: home aliases, then exact match,
then dynamic match, then the 404 fallback. -/
def getTemplatePath (fs : FSTree) (template : String) :
    List String × List (String × String) :=
  if template == "index" || template == "home" || template == "" then
    if existsSync fs ["app", "pages", "home.html"] then (["app", "pages", "home.html"], [])
    else if existsSync fs ["app", "pages", "home", "index.html"] then
      (["app", "pages", "home", "index.html"], [])
    else get404Path fs
  else
    let segments := (splitStrOnChar '/' template).filter (fun s => decide (s.length > 0))
    match findExactMatch fs segments with
    | some r => r
    | none =>
      match findDynamicMatch fs segments with
      | some r => r
      | none => get404Path fs

/-- Embeds `ViewEngine.loadTemplate`: the empty-path sentinel becomes the
inline 404 placeholder; a read failure (caught in the source) becomes the
template-not-found placeholder with empty parameters. -/
def loadTemplate (fs : FSTree) (template : String) : String × List (String × String) :=
  let r := getTemplatePath fs template
  if r.1.isEmpty then ("<h1>404 - Page Not Found</h1>", r.2)
  else
    match readFile fs r.1 with
    | some content => (content, r.2)
    | none => ("<h1>Template not found</h1>", [])

/-- Embeds `ViewEngine.getLayout` on the snapshot: the layout file under
the app root, or the inline fallback layout when reading fails. The
development-mode cache bypass re-reads the same snapshot, so both modes
coincide here. -/
def getLayout (fs : FSTree) : String :=
  match readFile fs ["app", "layout.html"] with
  | some layout => layout
  | none => "<html><body>\x7b\x7bcontent\x7d\x7d</body></html>"

/-- Embeds the query-parameter extraction of `request.ts` for origin-form
paths: the text after the first `?` (up to `#`) split on `&`, each
nonempty pair split at its first `=` (a missing value yields the empty
string). Percent decoding is not modelled; no input in scope uses it. -/
def rawQueryPairs (raw : String) : List (String × String) :=
  match raw.data.dropWhile (fun c => c != '?') with
  | [] => []
  | _ :: qs =>
    ((splitOnCharAux '&' [] (qs.takeWhile (fun c => c != '#'))).map String.mk).filterMap
      (fun pair =>
        if pair.data.isEmpty then none
        else
          match splitStrOnChar '=' pair with
          | [] => none
          | k :: vs => some (k, intercalateEq vs))

/-- Models `Object.fromEntries` over the search-parameter list: a repeated
key keeps its first position and its last value. -/
def fromEntries (ps : List (String × String)) : List (String × String) :=
  ps.foldl (fun acc p => insertParam acc p.1 p.2) []

/-- Embeds `queryParams` as consumed by the view engine and dispatcher. -/
def queryParams (raw : String) : List (String × String) :=
  fromEntries (rawQueryPairs raw)

/-- JavaScript-object insertion for `Value` fields, mirroring
`insertParam` (spread followed by a possibly-overwriting key). -/
def setKey (fields : List (String × Value)) (k : String) (v : Value) :
    List (String × Value) :=
  if fields.any (fun f => f.1 == k) then
    fields.map (fun f => if f.1 == k then (k, v) else f)
  else fields ++ [(k, v)]

/-- Lifts a parameter mapping into the value universe. -/
def paramsToValue (ps : List (String × String)) : Value :=
  Value.obj (ps.map (fun p => (p.1, Value.str p.2)))

/-- Interpolated page content built by `ViewEngine.render` before layout
composition: the loaded template interpolated against the merged context
`\x7b...data, dynamicParams, queryParams\x7d`. -/
def renderedContent (fs : FSTree) (template : String) (data : List (String × Value))
    (requestPath : String) : String :=
  let lt := loadTemplate fs template
  let ctx := Value.obj
    (setKey (setKey data "dynamicParams" (paramsToValue lt.2))
      "queryParams" (paramsToValue (queryParams requestPath)))
  parseVariables lt.1 ctx

/-- Layout composition step of `ViewEngine.render`:
`layout.replace("\x7b\x7bcontent\x7d\x7d", parsedTemplate)`. -/
def composeHtml (layout parsed : String) : String :=
  jsReplaceFirst layout "\x7b\x7bcontent\x7d\x7d" parsed

/-- Response written by a page view. -/
structure RenderOutput where
  status : Nat
  contentType : String
  body : String

/-- Embeds `ViewEngine.render` on a fresh stream (headers not yet sent):
it always responds 200 with the HTML content type and writes the composed
document. -/
def ViewEngine.render (fs : FSTree) (template : String) (data : List (String × Value))
    (requestPath : String) : RenderOutput :=
  { status := 200
    contentType := "text/html; charset=utf-8"
    body := composeHtml (getLayout fs) (renderedContent fs template data requestPath) }

/-! ### Route registry (controller.ts) -/

/-- One registered endpoint: absolute path, upper-cased method, handler.
The handler is kept abstract as a type parameter. -/
structure RouteEntry (α : Type) where
  path : String
  method : String
  handler : α

/-- Per-controller route registry. -/
structure Controller (α : Type) where
  name : String
  basePath : String
  routes : List (RouteEntry α)

/-- Collapses every run of repeated `/` to a single one, the effect of
`replace(/\/+/g, "/")` in `registerRoute`. -/
def collapseSlashesAux : List Char → List Char
  | [] => []
  | [c] => [c]
  | c1 :: c2 :: rest =>
    if c1 == '/' && c2 == '/' then collapseSlashesAux (c2 :: rest)
    else c1 :: collapseSlashesAux (c2 :: rest)

/-- String form of `collapseSlashesAux`. -/
def collapseSlashes (s : String) : String :=
  String.mk (collapseSlashesAux s.data)

/-- Embeds `Controller.registerRoute`: the absolute path is
`/api` + basePath + path with repeated slashes collapsed, the method is
stored upper-cased, and the entry is appended to the ordered route list. -/
def Controller.registerRoute {α : Type} (c : Controller α) (path method : String)
    (handler : α) : Controller α :=
  { c with
    routes := c.routes ++
      [{ path := collapseSlashes ("/api" ++ c.basePath ++ path)
         method := toUpperStr method
         handler := handler }] }

/-- Embeds `Controller.getHandler`: linear scan for the first route whose
path equals the request path exactly and whose stored method equals the
upper-cased request method; `none` is the not-found sentinel. -/
def Controller.getHandler {α : Type} (c : Controller α) (path method : String) :
    Option α :=
  let methodUpper := toUpperStr method
  (c.routes.find? (fun r => r.path == path && r.method == methodUpper)).map
    RouteEntry.handler

/-! ### Dispatcher (application.ts) -/

/-- Pseudo-headers of one inbound stream. -/
structure Headers where
  path : String
  method : String

/-- Models `new URL(rawPath, base).pathname` for origin-form request
targets: the text before the first `?` or `#`. Percent decoding and
dot-segment normalization are not modelled; no claim depends on them. -/
def stripQuery (raw : String) : String :=
  String.mk (raw.data.takeWhile (fun c => c != '?' && c != '#'))

/-- Models `path.extname`: the suffix of the last nonempty path segment
from its last dot, or the empty string when there is no dot or the only
dot starts the segment. -/
def extname (p : String) : String :=
  let base := (((splitStrOnChar '/' p).filter (fun s => !s.data.isEmpty)).getLast?).getD ""
  let rev := base.data.reverse
  let pre := rev.takeWhile (fun c => c != '.')
  if pre.length == rev.length then ""
  else if pre.length + 1 == rev.length then ""
  else String.mk ('.' :: pre.reverse)

/-- Fixed static-file extension set of the dispatcher
(`Application.staticFileExtensions`). -/
def staticFileExtensions : List String :=
  [".png", ".jpg", ".jpeg", ".gif", ".svg", ".ico", ".webp", ".bmp",
   ".ttf", ".woff", ".woff2", ".eot", ".otf", ".css", ".js", ".map",
   ".json", ".xml", ".txt", ".csv", ".pdf", ".doc", ".docx", ".xls",
   ".xlsx", ".ppt", ".pptx", ".zip", ".tar", ".gz", ".rar", ".mp3",
   ".mp4", ".avi", ".mov", ".wmv", ".flv", ".ts", ".mjs", ".html", ".htm"]

/-- Embeds `Application.isStaticFile`: lower-cased extension membership. -/
def isStaticFile (pathname : String) : Bool :=
  staticFileExtensions.contains (toLowerStr (extname pathname))

/-- The MIME table of `Application.getMimeType`. -/
def mimeTypes : List (String × String) :=
  [(".png", "image/png"), (".jpg", "image/jpeg"), (".jpeg", "image/jpeg"),
   (".gif", "image/gif"), (".svg", "image/svg+xml"), (".ico", "image/x-icon"),
   (".webp", "image/webp"), (".bmp", "image/bmp"), (".ttf", "font/ttf"),
   (".woff", "font/woff"), (".woff2", "font/woff2"),
   (".eot", "application/vnd.ms-fontobject"), (".otf", "font/otf"),
   (".css", "text/css"), (".js", "application/javascript"),
   (".mjs", "application/javascript"), (".cjs", "application/javascript"),
   (".ts", "application/javascript"), (".map", "application/json"),
   (".json", "application/json"), (".xml", "application/xml"),
   (".txt", "text/plain"), (".csv", "text/csv"), (".pdf", "application/pdf"),
   (".html", "text/html"), (".htm", "text/html")]

/-- Embeds `Application.getMimeType` with its octet-stream default. -/
def getMimeType (extension : String) : String :=
  ((mimeTypes.find? (fun e => e.1 == extension)).map Prod.snd).getD
    "application/octet-stream"

/-- Path segments used to join a pathname under a root directory. -/
def pathSegments (pathname : String) : List String :=
  (splitStrOnChar '/' pathname).filter (fun s => !s.data.isEmpty)

/-- Plain HTTP response (status, optional content type, body). -/
structure HttpResponse where
  status : Nat
  contentType : Option String
  body : String

/-- Embeds `Application.serveStaticFile` over the public-root snapshot:
404 when the joined path does not exist, 500 when reading throws (the
path names a directory), otherwise 200 with the computed MIME type. -/
def serveStaticFile (publicFs : FSTree) (pathname : String) : HttpResponse :=
  match FSTree.lookup publicFs (pathSegments pathname) with
  | none => { status := 404, contentType := none, body := "File not found" }
  | some (.dir _) => { status := 500, contentType := none, body := "Internal server error" }
  | some (.file content) =>
    { status := 200
      contentType := some (getMimeType (toLowerStr (extname pathname)))
      body := content }

/-- Outcome of the dispatcher on one stream: an API handler invoked
asynchronously with the parsed query, an immediate response, delegation to
static-file serving, or a page view rendered by the view engine. -/
inductive DispatchResult (α : Type) where
  | invoke (handler : α) (query : List (String × String))
  | respond (status : Nat) (body : String)
  | staticR (response : HttpResponse)
  | pageR (response : RenderOutput)

/-- First controller (in registration order) yielding a handler. -/
def findHandler {α : Type} (controllers : List (Controller α)) (pathname method : String) :
    Option α :=
  controllers.findSome? (fun c => c.getHandler pathname method)

/-- Embeds `Application.onStream`: API prefix first (404 JSON envelope
when no registry matches), then the static-extension check, then the page
view with the leading slash stripped from the template key. -/
def onStream {α : Type} (clientFs publicFs : FSTree) (controllers : List (Controller α))
    (h : Headers) : DispatchResult α :=
  let pathname := stripQuery h.path
  let query := queryParams h.path
  if strStartsWith pathname "/api" then
    match findHandler controllers pathname h.method with
    | some handler => .invoke handler query
    | none => .respond 404 "\x7b\"error\":\"API endpoint not found\"\x7d"
  else if isStaticFile pathname then
    .staticR (serveStaticFile publicFs pathname)
  else
    .pageR (ViewEngine.render clientFs
      (if strStartsWith pathname "/" then dropStr pathname 1 else pathname)
      [("title", Value.str "Home"), ("message", Value.str "Welcome to LocalPoll!")]
      h.path)

/-! ### Body codec (`getBody`) -/

/-- Outcome of the chunk-reading loop of `getBody`. -/
inductive ReadOutcome where
  | tooLarge
  | done (collected : List String)

/-- The data-event loop of `getBody`: the running byte length is bumped by
each chunk and the promise is rejected as soon as it exceeds the maximum,
before the end event (and hence any parsing) can run; otherwise chunks are
collected in order. -/
def readLoop (maxSize : Nat) : Nat → List String → List String → ReadOutcome
  | _, collected, [] => .done collected
  | bodyLength, collected, chunk :: rest =>
    let newLength := bodyLength + chunk.utf8ByteSize
    if maxSize < newLength then .tooLarge
    else readLoop maxSize newLength (collected ++ [chunk]) rest

/-- Result of `getBody`: a resolved value (the raw body string when JSON
parsing is disabled, a parsed value otherwise) or a rejection message. -/
inductive BodyResult (J : Type) where
  | ok (value : String ⊕ J)
  | rejected (message : String)

/-- Embeds `getBody` over a stream that delivers `chunks` and then ends.
JSON values and `JSON.parse` are abstracted into the type parameter `J`,
the parser `parse`, and the empty object `emptyObj` resolved for a blank
body; the claims about this function concern what happens before parsing
is ever consulted. The content-type guard mirrors
`headers["content-type"] && !startsWith(contentType)`. -/
def getBody {J : Type} (parse : String → Except String J) (emptyObj : J)
    (maxSize : Nat) (contentType : String) (parseJson : Bool)
    (ctHeader : Option String) (chunks : List String) : BodyResult J :=
  if ctHeader.any (fun ct => !strStartsWith ct contentType) then
    .rejected ("Unsupported content type. Expected: " ++ contentType)
  else
    match readLoop maxSize 0 [] chunks with
    | .tooLarge =>
      .rejected ("Request body too large. Maximum size is " ++ toString maxSize ++ " bytes")
    | .done collected =>
      let body := collected.foldl (· ++ ·) ""
      if !parseJson then .ok (.inl body)
      else if (trimStr body).data.isEmpty then .ok (.inr emptyObj)
      else
        match parse body with
        | .ok v => .ok (.inr v)
        | .error msg => .rejected ("Failed to parse request body: " ++ msg)


/-! ### Helper lemmas -/

lemma takeWhile_wordDot (l : List Char) (h : ∀ c ∈ l, isWordDot c = true) :
    (l ++ [rbrace, rbrace]).takeWhile isWordDot = l := by
  induction l with
  | nil => decide
  | cons c cs ih =>
    have hc := h c (by simp)
    simp only [List.cons_append, List.takeWhile_cons, hc, if_true]
    rw [ih (fun x hx => h x (by simp [hx]))]

lemma dropWhile_wordDot (l : List Char) (h : ∀ c ∈ l, isWordDot c = true) :
    (l ++ [rbrace, rbrace]).dropWhile isWordDot = [rbrace, rbrace] := by
  induction l with
  | nil => decide
  | cons c cs ih =>
    have hc := h c (by simp)
    simp only [List.cons_append, List.dropWhile_cons, hc, if_true]
    exact ih (fun x hx => h x (by simp [hx]))

lemma parseVarsAux_braced (data : Value) (key : List Char) (n : Nat)
    (hk : key ≠ []) (hwd : ∀ c ∈ key, isWordDot c = true) :
    parseVarsAux data (n + 1) (lbrace :: lbrace :: (key ++ [rbrace, rbrace])) =
      (displayValue (walkPath data (splitStrOnChar '.' (String.mk key)))).data := by
  obtain ⟨k0, ks, rfl⟩ := List.exists_cons_of_ne_nil hk
  simp only [parseVarsAux, beq_self_eq_true, if_true]
  rw [takeWhile_wordDot _ hwd, dropWhile_wordDot _ hwd]
  simp [parseVarsAux]

lemma parseVarsAux_nolb (data : Value) :
    ∀ (fuel : Nat) (l : List Char), (∀ c ∈ l, c ≠ lbrace) → parseVarsAux data fuel l = l := by
  intro fuel
  induction fuel with
  | zero => intro l _; cases l <;> rfl
  | succ n ih =>
    intro l hl
    cases l with
    | nil => rfl
    | cons c rest =>
      have hc : (c == lbrace) = false := by
        simpa using hl c (by simp)
      simp only [parseVarsAux, hc, Bool.false_eq_true, if_false]
      rw [ih rest (fun x hx => hl x (by simp [hx]))]

lemma expandDollar_nodollar (matched pre suf : List Char) :
    ∀ (rep : List Char), (∀ c ∈ rep, c ≠ '$') →
      expandDollar matched pre suf rep = rep := by
  intro rep
  induction rep with
  | nil => intro _; rfl
  | cons c rest ih =>
    intro h
    have hc : (c == '$') = false := by simpa using h c (by simp)
    rw [expandDollar.eq_def]
    simp only [hc, Bool.false_eq_true, if_false]
    rw [ih (fun x hx => h x (by simp [hx]))]

lemma readLoop_tooLarge (maxSize : Nat) :
    ∀ (chunks : List String) (acc : Nat) (collected : List String),
      acc ≤ maxSize → maxSize < acc + (chunks.map String.utf8ByteSize).sum →
      readLoop maxSize acc collected chunks = .tooLarge := by
  intro chunks
  induction chunks with
  | nil =>
    intro acc col h1 h2
    simp only [List.map_nil, List.sum_nil, Nat.add_zero] at h2
    omega
  | cons c cs ih =>
    intro acc col h1 h2
    simp only [readLoop]
    by_cases hc : maxSize < acc + c.utf8ByteSize
    · simp [hc]
    · simp only [hc, if_false]
      apply ih
      · omega
      · simp only [List.map_cons, List.sum_cons] at h2
        omega

/-! ### Claims -/

/-- Pages tree exhibiting a literal branch that dead-ends while a dynamic
sibling can satisfy the remaining segments. -/
def c1tree : FSTree :=
  .dir [("app", .dir [("pages", .dir [
    ("lit", .dir []),
    (":p", .dir [("y", .dir [("index.html", .file "DYNCONTENT")])])])])]

/-- Entry list of the pages directory of `c1tree`. -/
def c1PagesEntries : List (String × FSTree) :=
  [("lit", .dir []),
   (":p", .dir [("y", .dir [("index.html", .file "DYNCONTENT")])])]

/-- Claim C1 is false of the code: in `c1tree` the literal directory `lit`
matches the first segment of key `lit/y` but its subtree resolves nothing,
yet the whole resolution does not fall through to the 404 fallback — it
backtracks and succeeds through the dynamic sibling `:p`. -/
theorem C1_counterexample :
    searchDynamicRoutes c1tree 1 ["app", "pages", "lit"] ["y"] ["lit"] [] = none ∧
    getTemplatePath c1tree "lit/y" =
      (["app", "pages", ":p", "y", "index.html"], [("p", "lit")]) ∧
    getTemplatePath c1tree "lit/y" ≠ get404Path c1tree := by
  refine ⟨by decide, by decide, by decide⟩

/-- Claim C1 amended: when the directory listing succeeds and the literal
pass over it yields nothing (including a literal child whose subtree dead
ends), `searchDynamicRoutes` falls back to the dynamic pass over the same
entries; the whole key fails only when that pass also yields nothing. -/
theorem C1_amended (fs : FSTree) (fuel : Nat) (currentPath : List String)
    (currentSegment : String) (restSegments matchedSegments : List String)
    (dynamicParams : List (String × String)) (entries : List (String × FSTree))
    (hdir : readdir fs currentPath = some entries)
    (hlit : entries.findSome? (fun e =>
        if e.2.isDir && e.1 == currentSegment then
          searchDynamicRoutes fs fuel (currentPath ++ [e.1]) restSegments
            (matchedSegments ++ [currentSegment]) dynamicParams
        else none) = none) :
    searchDynamicRoutes fs (fuel + 1) currentPath (currentSegment :: restSegments)
        matchedSegments dynamicParams =
      entries.findSome? (fun e =>
        if e.2.isDir && strStartsWith e.1 ":" then
          searchDynamicRoutes fs fuel (currentPath ++ [e.1]) restSegments
            (matchedSegments ++ [e.1])
            (insertParam dynamicParams (dropStr e.1 1) currentSegment)
        else none) := by
  simp only [searchDynamicRoutes, hdir, hlit]

theorem C1_amended_witness :
    searchDynamicRoutes c1tree 2 ["app", "pages"] ["lit", "y"] [] [] =
      c1PagesEntries.findSome? (fun e =>
        if e.2.isDir && strStartsWith e.1 ":" then
          searchDynamicRoutes c1tree 1 (["app", "pages"] ++ [e.1]) ["y"] ([] ++ [e.1])
            (insertParam [] (dropStr e.1 1) "lit")
        else none) :=
  C1_amended c1tree 1 ["app", "pages"] "lit" ["y"] [] [] c1PagesEntries (by rfl) (by decide)

/-- Pages tree of the C2 scenario: both `poll/results.html` and
`poll/:id.html` exist. -/
def c2tree : FSTree :=
  .dir [("app", .dir [("pages", .dir [("poll", .dir [
    ("results.html", .file "RESULTS"),
    (":id.html", .file "DYNFILE")])])])]

/-- Small tree for exercising the general literal-precedence statement:
a literal directory `a` and a dynamic sibling `:d` both resolvable. -/
def c2wtree : FSTree :=
  .dir [("app", .dir [("pages", .dir [
    ("a", .dir [("index.html", .file "LIT")]),
    (":d", .dir [("index.html", .file "DYN")])])])]

/-- Entry list of the pages directory of `c2wtree`. -/
def c2wEntries : List (String × FSTree) :=
  [("a", .dir [("index.html", .file "LIT")]),
   (":d", .dir [("index.html", .file "DYN")])]

/-- Claim C2: literal-over-dynamic precedence. Concretely, with pages
containing both `poll/results.html` and `poll/:id.html`, the key
`poll/results` resolves to the literal file with no dynamic bindings; in
general, whenever the literal pass over a directory listing succeeds, its
result is the result of the whole level, so a dynamic sibling is never
consulted. -/
theorem C2_literal_precedence :
    (getTemplatePath c2tree "poll/results" =
        (["app", "pages", "poll", "results.html"], []) ∧
      loadTemplate c2tree "poll/results" = ("RESULTS", [])) ∧
    (∀ (fs : FSTree) (fuel : Nat) (currentPath : List String)
      (currentSegment : String) (restSegments matchedSegments : List String)
      (dynamicParams r : _) (entries : List (String × FSTree)),
      readdir fs currentPath = some entries →
      entries.findSome? (fun e =>
        if e.2.isDir && e.1 == currentSegment then
          searchDynamicRoutes fs fuel (currentPath ++ [e.1]) restSegments
            (matchedSegments ++ [currentSegment]) dynamicParams
        else none) = some r →
      searchDynamicRoutes fs (fuel + 1) currentPath (currentSegment :: restSegments)
        matchedSegments dynamicParams = some r) := by
  refine ⟨⟨by decide, by decide⟩, ?_⟩
  intro fs fuel currentPath currentSegment restSegments matchedSegments dynamicParams r entries hdir hlit
  simp only [searchDynamicRoutes, hdir, hlit]

theorem C2_literal_precedence_witness :
    searchDynamicRoutes c2wtree 1 ["app", "pages"] ["a"] [] [] =
      some (["app", "pages", "a", "index.html"], []) :=
  C2_literal_precedence.2 c2wtree 0 ["app", "pages"] "a" [] [] []
    (["app", "pages", "a", "index.html"], []) c2wEntries (by rfl) (by decide)

/-- Pages tree of the C3 scenario: `poll/:id/index.html`. -/
def c3tree : FSTree :=
  .dir [("app", .dir [("pages", .dir [("poll", .dir [
    (":id", .dir [("index.html", .file "POLLPAGE")])])])])]

/-- Claim C3: a dynamic directory binds its marker-stripped name to the
URL segment value: with pages containing `poll/:id/index.html`, loading
the key `poll/42` yields the content of that file together with the parameter
mapping `id = 42`. -/
theorem C3_dynamic_binding :
    loadTemplate c3tree "poll/42" = ("POLLPAGE", [("id", "42")]) ∧
    getTemplatePath c3tree "poll/42" =
      (["app", "pages", "poll", ":id", "index.html"], [("id", "42")]) := by
  exact ⟨by decide, by decide⟩

/-- Claim C4: registry round-trip. Registering a route stores it under the
slash-collapsed absolute path `/api + basePath + relativePath` with the
upper-cased method; provided no earlier route already occupies that
(path, method) pair, looking the absolute path up with the method in any
letter case returns exactly the registered handler, while looking up any
other path (in particular the same path in a different letter case, which
is a different string) that no route carries returns the not-found
sentinel. -/
theorem C4_registry_roundtrip {α : Type} (c : Controller α)
    (relPath method m2 p2 absPath : String) (handler : α)
    (habs : collapseSlashes ("/api" ++ c.basePath ++ relPath) = absPath)
    (hfresh : ∀ r ∈ c.routes, ¬(r.path = absPath ∧ r.method = toUpperStr method))
    (hm : toUpperStr m2 = toUpperStr method)
    (hp : p2 ≠ absPath)
    (hp2 : ∀ r ∈ c.routes, r.path ≠ p2) :
    (c.registerRoute relPath method handler).getHandler absPath m2 = some handler ∧
    (c.registerRoute relPath method handler).getHandler p2 m2 = none := by
  subst habs
  constructor
  · simp only [Controller.getHandler, Controller.registerRoute, hm]
    rw [List.find?_append]
    have h1 : c.routes.find?
        (fun r => r.path == collapseSlashes ("/api" ++ c.basePath ++ relPath) &&
          r.method == toUpperStr method) = none := by
      rw [List.find?_eq_none]
      intro r hr
      have := hfresh r hr
      simp only [Bool.and_eq_true, beq_iff_eq]
      tauto
    rw [h1]
    simp
  · simp only [Controller.getHandler, Controller.registerRoute, hm]
    rw [List.find?_append]
    have h1 : c.routes.find?
        (fun r => r.path == p2 && r.method == toUpperStr method) = none := by
      rw [List.find?_eq_none]
      intro r hr
      have := hp2 r hr
      simp only [Bool.and_eq_true, beq_iff_eq]
      tauto
    rw [h1]
    simp [Ne.symm hp]

theorem C4_registry_roundtrip_witness :
    (Controller.getHandler
      (Controller.registerRoute ⟨"PollController", "/poll", []⟩ "/create" "post" 7)
      "/api/poll/create" "POST" = some 7) ∧
    (Controller.getHandler
      (Controller.registerRoute ⟨"PollController", "/poll", []⟩ "/create" "post" 7)
      "/API/poll/create" "POST" = none) :=
  C4_registry_roundtrip ⟨"PollController", "/poll", []⟩ "/create" "post" "POST"
    "/API/poll/create" "/api/poll/create" 7 (by decide) (by simp) (by decide)
    (by decide) (by simp)

/-- Claim C5: for an API-prefixed pathname at which no registered
controller carries a route for the request method, every registry lookup
returns the not-found sentinel (`none`, never an exception — lookups are
total functions here) and the dispatcher responds 404 with the JSON
envelope naming the missing endpoint. -/
theorem C5_api_not_found {α : Type} (clientFs publicFs : FSTree)
    (controllers : List (Controller α)) (hd : Headers)
    (hapi : strStartsWith (stripQuery hd.path) "/api" = true)
    (hmiss : ∀ c ∈ controllers, ∀ r ∈ c.routes,
      ¬(r.path = stripQuery hd.path ∧ r.method = toUpperStr hd.method)) :
    (∀ c ∈ controllers, c.getHandler (stripQuery hd.path) hd.method = none) ∧
    onStream clientFs publicFs controllers hd =
      .respond 404 "\x7b\"error\":\"API endpoint not found\"\x7d" := by
  have hnone : ∀ c ∈ controllers, c.getHandler (stripQuery hd.path) hd.method = none := by
    intro c hc
    simp only [Controller.getHandler, Option.map_eq_none']
    rw [List.find?_eq_none]
    intro r hr
    have := hmiss c hc r hr
    simp only [Bool.and_eq_true, beq_iff_eq]
    tauto
  have hfind : findHandler controllers (stripQuery hd.path) hd.method = none := by
    rw [findHandler, List.findSome?_eq_none_iff]
    exact hnone
  refine ⟨hnone, ?_⟩
  simp only [onStream, hapi, if_true, hfind]

theorem C5_api_not_found_witness :
    onStream (α := Nat) (FSTree.dir []) (FSTree.dir [])
      [⟨"PollController", "/poll", [⟨"/api/poll/create", "POST", 7⟩]⟩]
      ⟨"/api/poll/missing", "GET"⟩ =
      .respond 404 "\x7b\"error\":\"API endpoint not found\"\x7d" :=
  (C5_api_not_found (FSTree.dir []) (FSTree.dir [])
    [⟨"PollController", "/poll", [⟨"/api/poll/create", "POST", 7⟩]⟩]
    ⟨"/api/poll/missing", "GET"⟩ (by decide) (by decide)).2

/-- Claim C6: a body whose accumulated size exceeds the configured maximum
is rejected with the descriptive size error while chunks are still being
read, for every parser: JSON parsing is never consulted. The content-type
guard is assumed to pass so the size check is what fires. -/
theorem C6_oversize_rejected {J : Type} (parse : String → Except String J)
    (emptyObj : J) (maxSize : Nat) (contentType : String) (parseJson : Bool)
    (ctHeader : Option String) (chunks : List String)
    (hct : ∀ ct ∈ ctHeader, strStartsWith ct contentType = true)
    (hsize : maxSize < (chunks.map String.utf8ByteSize).sum) :
    getBody parse emptyObj maxSize contentType parseJson ctHeader chunks =
      .rejected ("Request body too large. Maximum size is " ++ toString maxSize ++ " bytes") := by
  have hguard : ctHeader.any (fun ct => !strStartsWith ct contentType) = false := by
    cases ctHeader with
    | none => rfl
    | some ct => simp [Option.any, hct ct (by simp)]
  have hloop : readLoop maxSize 0 [] chunks = .tooLarge :=
    readLoop_tooLarge maxSize chunks 0 [] (Nat.zero_le _) (by omega)
  simp only [getBody, hguard, Bool.false_eq_true, if_false, hloop]

theorem C6_oversize_rejected_witness :
    getBody (J := Nat) (fun _ => Except.error "unused") 0 3 "application/json" true
      (some "application/json; charset=utf-8") ["ab", "cd"] =
      .rejected ("Request body too large. Maximum size is " ++ toString 3 ++ " bytes") :=
  C6_oversize_rejected (fun _ => Except.error "unused") 0 3 "application/json" true
    (some "application/json; charset=utf-8") ["ab", "cd"] (by decide) (by decide)

/-- Claim C7: every page-view request (pathname neither API-prefixed nor
carrying a recognized static extension) is answered by the view engine,
whose response always has status 200 and the HTML content type — for
every template key, including keys that resolve to the 404 template or
the inline placeholder. -/
theorem C7_page_view_status {α : Type} (clientFs publicFs : FSTree)
    (controllers : List (Controller α)) (hd : Headers)
    (h1 : strStartsWith (stripQuery hd.path) "/api" = false)
    (h2 : isStaticFile (stripQuery hd.path) = false) :
    onStream clientFs publicFs controllers hd =
      .pageR (ViewEngine.render clientFs
        (if strStartsWith (stripQuery hd.path) "/" then dropStr (stripQuery hd.path) 1
         else stripQuery hd.path)
        [("title", Value.str "Home"), ("message", Value.str "Welcome to LocalPoll!")]
        hd.path) ∧
    (∀ (fs : FSTree) (t : String) (d : List (String × Value)) (p : String),
      (ViewEngine.render fs t d p).status = 200 ∧
      (ViewEngine.render fs t d p).contentType = "text/html; charset=utf-8") := by
  refine ⟨?_, fun fs t d p => ⟨rfl, rfl⟩⟩
  simp only [onStream, h1, h2, Bool.false_eq_true, if_false]

theorem C7_page_view_status_witness :
    onStream (α := Nat) (FSTree.dir []) (FSTree.dir []) [] ⟨"/no/such/page", "GET"⟩ =
      .pageR (ViewEngine.render (FSTree.dir []) "no/such/page"
        [("title", Value.str "Home"), ("message", Value.str "Welcome to LocalPoll!")]
        "/no/such/page") :=
  (C7_page_view_status (FSTree.dir []) (FSTree.dir []) [] ⟨"/no/such/page", "GET"⟩
    (by decide) (by decide)).1

/-- Claim C8: interpolation. The two concrete examples of the spec hold;
in general a template that is exactly a doubled-brace key of word-or-dot
characters is replaced by the displayed value of the dotted-path walk
(empty string when the walk hits `undefined`), and a template containing
no left brace is left untouched. -/
theorem C8_interpolate :
    parseVariables "\x7b\x7ba.b\x7d\x7d"
      (Value.obj [("a", Value.obj [("b", Value.str "x")])]) = "x" ∧
    parseVariables "\x7b\x7bmissing\x7d\x7d" (Value.obj []) = "" ∧
    (∀ (data : Value) (key : List Char), key ≠ [] →
      (∀ c ∈ key, isWordDot c = true) →
      parseVariables (String.mk (lbrace :: lbrace :: (key ++ [rbrace, rbrace]))) data =
        displayValue (walkPath data (splitStrOnChar '.' (String.mk key)))) ∧
    (∀ (data : Value) (s : String), (∀ c ∈ s.data, c ≠ lbrace) →
      parseVariables s data = s) := by
  refine ⟨by decide, by decide, ?_, ?_⟩
  · intro data key hk hwd
    show String.mk (parseVarsAux data
      (lbrace :: lbrace :: (key ++ [rbrace, rbrace])).length
      (lbrace :: lbrace :: (key ++ [rbrace, rbrace]))) = _
    rw [show (lbrace :: lbrace :: (key ++ [rbrace, rbrace])).length
        = (lbrace :: (key ++ [rbrace, rbrace])).length + 1 from rfl]
    rw [parseVarsAux_braced data key _ hk hwd]
  · intro data s hs
    show String.mk (parseVarsAux data s.data.length s.data) = s
    rw [parseVarsAux_nolb data _ _ hs]

theorem C8_interpolate_witness :
    (parseVariables "\x7b\x7bt\x7d\x7d" (Value.obj [("t", Value.str "v")]) = "v") ∧
    (parseVariables "plain text" (Value.obj []) = "plain text") :=
  ⟨C8_interpolate.2.2.1 (Value.obj [("t", Value.str "v")]) ['t'] (by decide) (by decide),
   C8_interpolate.2.2.2 (Value.obj []) "plain text" (by decide)⟩

/-- Client tree of the C9 counterexample: a layout with one content
marker and a page whose text is the dollar sequence standing for the
matched substring. -/
def c9tree : FSTree :=
  .dir [("app", .dir [
    ("layout.html", .file "A\x7b\x7bcontent\x7d\x7dB"),
    ("pages", .dir [("p.html", .file "$&")])])]

/-- Claim C9 is false of the code: with page content `$&`, the verbatim
replacement the claim describes would produce `A$&B`, but JavaScript
string replace interprets `$&` as the matched substring, so the rendered
body is the layout text itself. -/
theorem C9_counterexample :
    (ViewEngine.render c9tree "p" [] "").body = "A\x7b\x7bcontent\x7d\x7dB" ∧
    (ViewEngine.render c9tree "p" [] "").body ≠ "A$&B" :=
  ⟨by decide, by decide⟩

/-- Claim C9 amended: the final HTML is the layout with its first
`\x7b\x7bcontent\x7d\x7d` occurrence replaced by the interpolated content
under JavaScript replacement-pattern semantics, which interpret dollar
sequences in the content; whenever the content contains no dollar
character the insertion is verbatim. -/
theorem C9_amended :
    (∀ layout parsed : String, (∀ c ∈ parsed.data, c ≠ '$') →
      composeHtml layout parsed =
        literalReplaceFirst layout "\x7b\x7bcontent\x7d\x7d" parsed) ∧
    (∀ (fs : FSTree) (t : String) (d : List (String × Value)) (p : String),
      (ViewEngine.render fs t d p).body =
        composeHtml (getLayout fs) (renderedContent fs t d p)) := by
  refine ⟨?_, fun fs t d p => rfl⟩
  intro layout parsed h
  simp only [composeHtml, jsReplaceFirst, literalReplaceFirst]
  cases hf : findFirst? ("\x7b\x7bcontent\x7d\x7d").data layout.data with
  | none => rfl
  | some pr =>
    cases pr with
    | mk pre suf =>
      show String.mk
          (pre ++ expandDollar ("\x7b\x7bcontent\x7d\x7d").data pre suf parsed.data ++ suf) =
        String.mk (pre ++ parsed.data ++ suf)
      rw [expandDollar_nodollar _ _ _ parsed.data h]

theorem C9_amended_witness :
    composeHtml "A\x7b\x7bcontent\x7d\x7dB" "hello" =
      literalReplaceFirst "A\x7b\x7bcontent\x7d\x7dB" "\x7b\x7bcontent\x7d\x7d" "hello" :=
  C9_amended.1 "A\x7b\x7bcontent\x7d\x7dB" "hello" (by decide)

/-- Claim C10: a non-API pathname whose lower-cased extension is in the
static set (which contains `.html`, `.htm`, `.json`, `.js`, `.css`) is
always delegated to static-file serving under the public root — never to
the view engine — and an absent file yields the 404 file response. -/
theorem C10_static_dispatch {α : Type} (clientFs publicFs : FSTree)
    (controllers : List (Controller α)) (hd : Headers)
    (h1 : strStartsWith (stripQuery hd.path) "/api" = false)
    (h2 : isStaticFile (stripQuery hd.path) = true) :
    onStream clientFs publicFs controllers hd =
      .staticR (serveStaticFile publicFs (stripQuery hd.path)) ∧
    (∀ r, onStream clientFs publicFs controllers hd ≠ DispatchResult.pageR r) ∧
    (FSTree.lookup publicFs (pathSegments (stripQuery hd.path)) = none →
      serveStaticFile publicFs (stripQuery hd.path) =
        ⟨404, none, "File not found"⟩) ∧
    ([".html", ".htm", ".json", ".js", ".css"].all
      (fun e => staticFileExtensions.contains e) = true) := by
  have hmain : onStream clientFs publicFs controllers hd =
      .staticR (serveStaticFile publicFs (stripQuery hd.path)) := by
    simp only [onStream, h1, h2, Bool.false_eq_true, if_false, if_true]
  refine ⟨hmain, ?_, ?_, by decide⟩
  · intro r heq
    rw [hmain] at heq
    exact DispatchResult.noConfusion heq
  · intro hnone
    simp only [serveStaticFile, hnone]

theorem C10_static_dispatch_witness :
    onStream (α := Nat) (FSTree.dir []) (FSTree.dir []) [] ⟨"/missing.html", "GET"⟩ =
      .staticR (serveStaticFile (FSTree.dir []) "/missing.html") :=
  (C10_static_dispatch (FSTree.dir []) (FSTree.dir []) [] ⟨"/missing.html", "GET"⟩
    (by decide) (by decide)).1

end LocalPoll
